import Mathlib

/-!
Verification development for the AllLineBack address API
(src/app: models.py, schemas.py, db.py, routers/cities.py,
routers/corpuses.py, routers/main_records.py).

The relational store and the SQLAlchemy session are embedded explicitly.
The session produced by db.py is configured with `autoflush=False`
(`sessionmaker(bind=engine, autocommit=False, autoflush=False)`), which the
embedding reflects faithfully:

* ORM writes (`db.add`, attribute assignment on a loaded object) are staged
  as pending operations and are *not* visible to subsequent SELECTs;
* a flush happens only at an explicit `db.flush()` or at `db.commit()`;
  at that point the pending operations hit the database in program order
  and uniqueness / foreign-key / check constraints are enforced;
* `db.get` consults the identity map first: a loaded row that has pending
  attribute modifications is visible under its load-time primary key with
  its modified values, while a pending (never flushed) INSERT is invisible;
* `db.rollback()` discards everything back to the transaction start
  (the state at the beginning of the request).

Machine integers are modelled as `Int` (Python ints are unbounded).
-/

namespace AllLineBack

/-- A row of the `cities` table (models.py, class City): surrogate id and a
unique name. -/
structure CityRow where
  id : Int
  name : String
deriving Repr, DecidableEq

/-- A row of the `corpuses` table (models.py, class Corpus): surrogate id,
owning city and a name unique within the city. -/
structure CorpusRow where
  id : Int
  cityId : Int
  name : String
deriving Repr, DecidableEq

/-- A row of the `main` table (models.py, class MainRecord): id (may be
caller-supplied), owning corpus, street, optional house number and a boolean
status flag. -/
structure MainRow where
  id : Int
  corpusId : Int
  street : String
  houseNum : Option String
  status : Bool
deriving Repr, DecidableEq

/-- The relational store: the three tables. -/
structure DB where
  cities : List CityRow
  corpuses : List CorpusRow
  records : List MainRow
deriving Repr, DecidableEq

/-- Python `str.strip()` / SQL `trim`: drop leading and trailing
whitespace. (Implemented by structural recursion so that concrete runs
reduce inside the kernel; the library trim is defined by well-founded
recursion and does not.) -/
def pyStrip (s : String) : String :=
  ⟨((s.data.dropWhile Char.isWhitespace).reverse.dropWhile
      Char.isWhitespace).reverse⟩

/-- The database-level UNIQUE(corpus_id, street, house_num) constraint
(`uq_main_corpus_street_house`): SQL treats NULLs as distinct, so two rows
conflict only when both house numbers are non-NULL and equal. -/
def natKeyConflict (a b : MainRow) : Bool :=
  decide (a.corpusId = b.corpusId) && decide (a.street = b.street) &&
    (match a.houseNum, b.houseNum with
     | some x, some y => decide (x = y)
     | _, _ => false)

/-- The application-level duplicate probe used by the handlers
(`MainRecord.house_num.is_(payload.house_num) if payload.house_num is None
else MainRecord.house_num == payload.house_num`): here NULL does match NULL. -/
def appNatKeyMatch (r : MainRow) (cid : Int) (street : String)
    (hn : Option String) : Bool :=
  decide (r.corpusId = cid) && decide (r.street = street) &&
    decide (r.houseNum = hn)

/-- Errors surfaced by the store at flush time. `integrityError` covers the
primary-key, unique and check constraints of the `main` table;
`staleUpdate` is SQLAlchemy's error when an UPDATE matches no row;
`validationError` models the response-model rejection of a `None` field. -/
inductive DbErr where
  | integrityError
  | staleUpdate
  | validationError
deriving Repr, DecidableEq

/-- Constraint check run by the store when a `main` row is written: the
CHECK (trim(street) <> ''), the FK to `corpuses` and, against `others`
(the other rows of the table), primary-key and natural-key uniqueness. -/
def rowBad (db : DB) (others : List MainRow) (r : MainRow) : Bool :=
  decide (pyStrip r.street = "") ||
  !(db.corpuses.any (fun c => decide (c.id = r.corpusId))) ||
  others.any (fun o => decide (o.id = r.id) || natKeyConflict o r)

/-- A pending (unflushed) ORM operation on the `main` table: an INSERT of a
new object, or an UPDATE of the row loaded under primary key `k` to the new
attribute values `r` (the id itself may change: re-keying). -/
inductive PendingOp where
  | ins (r : MainRow)
  | upd (k : Int) (r : MainRow)
deriving Repr, DecidableEq

/-- Apply an INSERT at flush time. -/
def applyIns (db : DB) (r : MainRow) : Except DbErr DB :=
  if rowBad db db.records r then .error .integrityError
  else .ok {db with records := db.records ++ [r]}

/-- Apply an UPDATE at flush time: `UPDATE main SET ... WHERE id = k`.
If no row matches, SQLAlchemy raises (stale data); otherwise the matched row
is replaced in place and constraints are re-checked against the others. -/
def applyUpd (db : DB) (k : Int) (r : MainRow) : Except DbErr DB :=
  if db.records.any (fun o => decide (o.id = k)) then
    if rowBad db (db.records.filter (fun o => !decide (o.id = k))) r then
      .error .integrityError
    else
      .ok {db with records :=
        db.records.map (fun o => if o.id = k then r else o)}
  else .error .staleUpdate

def applyOp (db : DB) : PendingOp → Except DbErr DB
  | .ins r => applyIns db r
  | .upd k r => applyUpd db k r

/-- Flush: apply the pending operations in program order. -/
def flushOps (db : DB) : List PendingOp → Except DbErr DB
  | [] => .ok db
  | op :: rest =>
    match applyOp db op with
    | .ok db' => flushOps db' rest
    | .error e => .error e

/-- The SQLAlchemy session state for one request: the database as of the
transaction start (`committed`), the flushed-but-uncommitted view
(`current`), the pending unflushed `main`-row operations, and the id
sequences backing the SERIAL columns of `cities` and `corpuses`. -/
structure Session where
  committed : DB
  current : DB
  pending : List PendingOp
  nextCityId : Int
  nextCorpusId : Int
deriving Repr, DecidableEq

/-- `db.flush()`: push the pending operations into the transaction. -/
def Session.flushAll (s : Session) : Except DbErr Session :=
  match flushOps s.current s.pending with
  | .ok db => .ok {s with current := db, pending := []}
  | .error e => .error e

/-- `db.commit()`: flush, then make the transaction durable. -/
def Session.commitAll (s : Session) : Except DbErr Session :=
  match s.flushAll with
  | .ok s' => .ok {s' with committed := s'.current}
  | .error e => .error e

/-- `db.rollback()`: discard everything since the transaction start.
With `autoflush=False` nothing inside the import loop's try block can raise
`IntegrityError`, so the handler that calls this is dead code; the operation
is still part of the model. -/
def Session.rollbackAll (s : Session) : Session :=
  {s with current := s.committed, pending := []}

/-- The pending UPDATE (if any) recorded for the row loaded under id `k`. -/
def pendingUpdLookup (p : List PendingOp) (k : Int) : Option MainRow :=
  p.findSome? (fun op =>
    match op with
    | .upd k' r => if k' = k then some r else none
    | .ins _ => none)

/-- `db.get(models.MainRecord, k)` with `autoflush=False`: the identity map
answers first — a loaded row with pending modifications is returned with its
modified values — otherwise a SELECT against the flushed state; a pending
unflushed INSERT is invisible. -/
def sessGet (s : Session) (k : Int) : Option MainRow :=
  match pendingUpdLookup s.pending k with
  | some r => some r
  | none => s.current.records.find? (fun o => decide (o.id = k))

/-- The duplicate SELECT of the reconciler (main_records.py:443-452): the
WHERE clause is evaluated by the database on the flushed state, but a
matching row that is already loaded and modified in the session is returned
as the in-session object with its modified values. Returns the identity-map
key together with the row. -/
def sessFindNatKey (s : Session) (cid : Int) (street : String)
    (hn : Option String) : Option (Int × MainRow) :=
  match s.current.records.find? (fun r => appNatKeyMatch r cid street hn) with
  | some r =>
    match pendingUpdLookup s.pending r.id with
    | some d => some (r.id, d)
    | none => some (r.id, r)
  | none => none

/-- Attribute assignment on the object loaded under id `k`: merge into the
existing pending UPDATE for that object, or stage a new one. -/
def stageUpd (s : Session) (k : Int) (r : MainRow) : Session :=
  if (pendingUpdLookup s.pending k).isSome then
    {s with pending := s.pending.map (fun op =>
      match op with
      | .upd k' r0 => if k' = k then .upd k r else .upd k' r0
      | .ins r0 => .ins r0)}
  else {s with pending := s.pending ++ [.upd k r]}

/-- `db.add(obj)` for a new `main` row. -/
def stageIns (s : Session) (r : MainRow) : Session :=
  {s with pending := s.pending ++ [.ins r]}

/-! ### CRUD endpoints -/

/-- The request body of POST /main (schemas.MainCreate, schemas.py:35-41):
corpus_id, street, house_num, status — note that there is no `id` field. -/
structure MainCreatePayload where
  corpusId : Int
  street : String
  houseNum : Option String
  status : Option Bool
deriving Repr, DecidableEq

inductive CreateResult where
  /-- 400 "Corpus not found" -/
  | corpusNotFound
  /-- 409 "Record already exists for this (corpus, street, house_num)" -/
  | conflict
  /-- 500: the handler evaluates `payload.id` (main_records.py:37) but
  `schemas.MainCreate` defines no `id` field, so the non-duplicate path
  raises `AttributeError` before anything is inserted. -/
  | attributeError
deriving Repr, DecidableEq

/-- POST /main (create_record, main_records.py:19-44). The corpus is checked
first, then the application-level duplicate probe (NULL house_num matched
via IS NULL, an empty string only matching an empty string); past both
checks the handler reads the non-existent `payload.id` and crashes. -/
def create_record (db : DB) (p : MainCreatePayload) : CreateResult :=
  if db.corpuses.any (fun c => decide (c.id = p.corpusId)) then
    if db.records.any (fun r => appNatKeyMatch r p.corpusId p.street p.houseNum)
    then CreateResult.conflict
    else CreateResult.attributeError
  else CreateResult.corpusNotFound

/-- DELETE /corpuses/{id} (delete_corpus, corpuses.py:143-148) always
answers 204: a missing corpus returns silently, an existing one is removed
via `db.delete(obj); db.commit()`. Because `models.Corpus.main_records`
carries `cascade="all,delete"` (models.py:27), the ORM deletes the owned
`main` rows before the corpus, so the FK `ondelete="RESTRICT"` never fires
and the whole subtree disappears. -/
def delete_corpus (db : DB) (cid : Int) : DB :=
  match db.corpuses.find? (fun c => decide (c.id = cid)) with
  | none => db
  | some _ =>
    {db with
      corpuses := db.corpuses.filter (fun c => !decide (c.id = cid)),
      records := db.records.filter (fun r => !decide (r.corpusId = cid))}

/-- The request body of PATCH /main/status-bulk (schemas.BulkStatusIn):
the new status plus either (city_id, corpus_id) or (city_name, corpus_name);
the name fields are plain optional strings. -/
structure BulkStatusPayload where
  status : Bool
  cityId : Option Int
  corpusId : Option Int
  cityName : Option String
  corpusName : Option String
deriving Repr, DecidableEq

inductive BulkResult where
  /-- 200 with {updated, status, city_id, corpus_id}; carries the new DB. -/
  | ok (updated : Nat) (cityId corpusId : Int) (db : DB)
  /-- 404 "City not found by name" -/
  | cityNotFoundByName
  /-- 404 "Corpus not found by name within the city" -/
  | corpusNotFoundByName
  /-- 400 "Provide (city_id & corpus_id) or (city_name & corpus_name)" -/
  | badRequest
  /-- 404 "City not found" -/
  | cityNotFound
  /-- 400 "Corpus does not belong to the specified city" (also raised when
  the corpus id does not exist) -/
  | corpusMismatch
deriving Repr, DecidableEq

/-- Python truthiness of an optional int: `None` and `0` are falsy. -/
def truthyInt : Option Int → Bool
  | some n => !decide (n = 0)
  | none => false

/-- Python truthiness of an optional string: `None` and `""` are falsy. -/
def truthyStr : Option String → Bool
  | some s => !decide (s = "")
  | none => false

/-- The tail of bulk_status_change (main_records.py:225-241) once both ids
are in hand: check the city exists, check the corpus exists and belongs to
that city, then run one set-based
`UPDATE main SET status = :status WHERE corpus_id = :corpus_id`, commit,
and return the row count. -/
def bulkApply (db : DB) (st : Bool) (cid kid : Int) : BulkResult :=
  if !(db.cities.any (fun c => decide (c.id = cid))) then .cityNotFound
  else
    match db.corpuses.find? (fun k => decide (k.id = kid)) with
    | none => .corpusMismatch
    | some corp =>
      if decide (corp.cityId = cid) then
        .ok ((db.records.filter (fun r => decide (r.corpusId = kid))).length)
          cid kid
          {db with records := db.records.map (fun r =>
            if r.corpusId = kid then {r with status := st} else r)}
      else .corpusMismatch

/-- PATCH /main/status-bulk (bulk_status_change, main_records.py:201-241):
resolve ids (by name when either id is missing/falsy and both names are
truthy), then validate and update via `bulkApply`. -/
def bulk_status_change (db : DB) (p : BulkStatusPayload) : BulkResult :=
  let resolved : Except BulkResult (Option Int × Option Int) :=
    if (!truthyInt p.cityId || !truthyInt p.corpusId) &&
       (truthyStr p.cityName && truthyStr p.corpusName) then
      match db.cities.find? (fun c => decide (some c.name = p.cityName)) with
      | none => .error .cityNotFoundByName
      | some city =>
        match db.corpuses.find? (fun k =>
            decide (k.cityId = city.id) && decide (some k.name = p.corpusName)) with
        | none => .error .corpusNotFoundByName
        | some corp => .ok (some city.id, some corp.id)
    else .ok (p.cityId, p.corpusId)
  match resolved with
  | .error e => e
  | .ok (cid?, kid?) =>
    if !truthyInt cid? || !truthyInt kid? then .badRequest
    else
      match cid?, kid? with
      | some cid, some kid => bulkApply db p.status cid kid
      | _, _ => .badRequest

/-! ### The import run (POST /main/import-homes)

The external HTTP fetch (retries, timeout, JSON parsing) is an out-of-scope
collaborator; the model starts from `results`, the parsed list of external
records the handler loops over. -/

/-- The `fields` sub-dict of one external record, restricted to the keys the
handler reads. External ids are integers as delivered by the upstream JSON. -/
structure ExtFields where
  id : Option Int
  street : Option String
  sNumber : Option String
  city : Option String
  sLiter : Option String
deriving Repr, DecidableEq

/-- One element of `results`: its `fields` dict and the top-level `pk`.
The handler's `(item or {}).get("fields", {}) or {}` collapses a null item
or null fields to an empty dict, which this model renders as the record
with every field `none`. -/
structure ExtItem where
  fields : ExtFields
  pk : Option Int
deriving Repr, DecidableEq

/-- The request body of POST /main/import-homes (schemas.ImportHomesIn) minus
`connect_date_gte`, which only feeds the external request. The name fields
are validated non-empty and stripped by pydantic. -/
structure ImportPayload where
  cityName : Option String
  corpusName : Option String
deriving Repr, DecidableEq

structure Counters where
  imported : Nat
  updated : Nat
  unchanged : Nat
  skipped : Nat
deriving Repr, DecidableEq

/-- The response of the import endpoint (schemas.ImportSummary). -/
structure ImportSummary where
  totalSource : Nat
  imported : Nat
  updated : Nat
  unchanged : Nat
  skipped : Nat
  cityId : Int
  corpusId : Int
  warnings : List String
deriving Repr, DecidableEq

/-- The per-run resolution cache: `(city_name, corpus_name) -> (city_id,
corpus_id)` (main_records.py:384). -/
abbrev Cache := List ((String × String) × (Int × Int))

def cacheLookup (c : Cache) (k : String × String) : Option (Int × Int) :=
  (c.find? (fun e => decide (e.1 = k))).map (·.2)

/-- The loop state of one import run: session, cache, counters, warnings. -/
structure LoopState where
  sess : Session
  cache : Cache
  counters : Counters
  warnings : List String
deriving Repr, DecidableEq

/-- Python `a or b` on optional ints from JSON: `None` and `0` are falsy. -/
def pyOrInt (a b : Option Int) : Option Int :=
  match a with
  | some n => if n = 0 then b else some n
  | none => b

/-- Python `a or b` on optional strings: `None` and `""` are falsy. -/
def pyOrStr (a b : Option String) : Option String :=
  match a with
  | some s => if s = "" then b else some s
  | none => b

def noneIfEmpty (s : String) : Option String :=
  if s = "" then none else some s

/-- `ext_id = f.get("id") or item.get("pk")` (main_records.py:410). -/
def extIdOf (item : ExtItem) : Option Int :=
  pyOrInt item.fields.id item.pk

/-- `street = (f.get("street") or "").strip()` (main_records.py:414). -/
def streetOf (item : ExtItem) : String :=
  pyStrip (item.fields.street.getD "")

/-- `house_num`: stripped `s_number`, empty normalized to NULL
(main_records.py:418-419). -/
def houseNumOf (item : ExtItem) : Option String :=
  let raw := pyStrip (item.fields.sNumber.getD "")
  if raw = "" then none else some raw

/-- `city_name = (payload.city_name or f.get("city") or "").strip()` then
`city_name or None` (main_records.py:422,424). -/
def cityNameOf (p : ImportPayload) (item : ExtItem) : Option String :=
  noneIfEmpty (pyStrip ((pyOrStr p.cityName item.fields.city).getD ""))

/-- `corpus_name = (payload.corpus_name or f.get("s_liter") or "").strip()`
then `corpus_name or None` (main_records.py:423-424). -/
def corpusNameOf (p : ImportPayload) (item : ExtItem) : Option String :=
  noneIfEmpty (pyStrip ((pyOrStr p.corpusName item.fields.sLiter).getD ""))

/-- The city stanza of get_or_create_city_corpus (main_records.py:393-397):
SELECT the city by name from the flushed state; if absent, `db.add` a new
city row (next sequence value) and `db.flush()` — the flush also pushes any
pending `main`-row operations and can therefore raise. -/
def resolveCity (s : Session) (cn : String) : Except DbErr (Int × Session) :=
  match s.current.cities.find? (fun c => decide (c.name = cn)) with
  | some c => .ok (c.id, s)
  | none =>
    match s.flushAll with
    | .error e => .error e
    | .ok s1 =>
      .ok (s1.nextCityId,
        {s1 with
          current := {s1.current with
            cities := s1.current.cities ++ [⟨s1.nextCityId, cn⟩]},
          nextCityId := s1.nextCityId + 1})

/-- The corpus stanza of get_or_create_city_corpus (main_records.py:398-404):
SELECT the corpus by (city_id, name); if absent, `db.add` plus `db.flush()`,
with the same caveat about pending operations. -/
def resolveCorpus (s : Session) (cid : Int) (kn : String) :
    Except DbErr (Int × Session) :=
  match s.current.corpuses.find? (fun k =>
      decide (k.cityId = cid) && decide (k.name = kn)) with
  | some k => .ok (k.id, s)
  | none =>
    match s.flushAll with
    | .error e => .error e
    | .ok s2 =>
      .ok (s2.nextCorpusId,
        {s2 with
          current := {s2.current with
            corpuses := s2.current.corpuses ++ [⟨s2.nextCorpusId, cid, kn⟩]},
          nextCorpusId := s2.nextCorpusId + 1})

/-- get_or_create_city_corpus (main_records.py:386-406): answer from the
per-run cache when possible; otherwise resolve (and create as needed) the
city and the corpus, then fill the cache. The creations flush, so this call
can raise, and it sits outside the per-record try block
(main_records.py:424). -/
def get_or_create_city_corpus (s : Session) (cache : Cache)
    (cityName corpusName : Option String) :
    Except DbErr (Option (Int × Int) × Session × Cache) :=
  if !truthyStr cityName || !truthyStr corpusName then .ok (none, s, cache)
  else
    let cn := cityName.getD ""
    let kn := corpusName.getD ""
    match cacheLookup cache (cn, kn) with
    | some pr => .ok (some pr, s, cache)
    | none =>
      match resolveCity s cn with
      | .error e => .error e
      | .ok (cid, s1) =>
        match resolveCorpus s1 cid kn with
        | .error e => .error e
        | .ok (kid, s2) => .ok (some (cid, kid), s2, ((cn, kn), (cid, kid)) :: cache)

/-- Classify the current record `skipped` and append a warning. -/
def skipWith (st : LoopState) (w : String) : LoopState :=
  {st with
    counters := {st.counters with skipped := st.counters.skipped + 1},
    warnings := st.warnings ++ [w]}

/-- The body of the per-record try block (main_records.py:429-468). With
`autoflush=False` no statement in it flushes, so no `IntegrityError` can be
raised here and the body is a pure state transformation — the
`except IntegrityError` handler (line 469-470) is unreachable. External ids
being integers, `int(ext_id)` in the re-key branch cannot fail either, so
its inner `except Exception` branch is likewise unreachable.

When the id lookup succeeds, each of corpus_id, street and house_num is
assigned only if it differs; the net staged row in the `updated` case equals
the loaded row with all three fields replaced by the incoming values. In the
`unchanged` case nothing is assigned and nothing is staged. -/
def reconcile (st : LoopState) (extId kid : Int) (street : String)
    (hn : Option String) : LoopState :=
  match sessGet st.sess extId with
  | some obj =>
    if obj.corpusId = kid ∧ obj.street = street ∧ obj.houseNum = hn then
      {st with counters :=
        {st.counters with unchanged := st.counters.unchanged + 1}}
    else
      {st with
        sess := stageUpd st.sess extId
          {obj with corpusId := kid, street := street, houseNum := hn},
        counters := {st.counters with updated := st.counters.updated + 1}}
  | none =>
    match sessFindNatKey st.sess kid street hn with
    | some (origId, dup) =>
      -- `dup.id = int(ext_id)` — re-key the natural-key match
      {st with
        sess := stageUpd st.sess origId {dup with id := extId},
        counters := {st.counters with updated := st.counters.updated + 1}}
    | none =>
      {st with
        sess := stageIns st.sess
          {id := extId, corpusId := kid, street := street,
           houseNum := hn, status := true},
        counters := {st.counters with imported := st.counters.imported + 1}}

/-- One iteration of the import loop (main_records.py:408-470). -/
def processItem (p : ImportPayload) (st : LoopState) (item : ExtItem) :
    Except DbErr LoopState :=
  match extIdOf item with
  | none => .ok (skipWith st "Missing id in source record")
  | some extId =>
    if streetOf item = "" then
      .ok (skipWith st s!"id={extId}: empty street")
    else
      match get_or_create_city_corpus st.sess st.cache
          (cityNameOf p item) (corpusNameOf p item) with
      | .error e => .error e
      | .ok (none, s', cache') =>
        .ok (skipWith {st with sess := s', cache := cache'}
          s!"id={extId}: no city/corpus in payload or source")
      | .ok (some (_cid, kid), s', cache') =>
        .ok (reconcile {st with sess := s', cache := cache'}
          extId kid (streetOf item) (houseNumOf item))

/-- The loop over `results`. -/
def runCore (p : ImportPayload) (st : LoopState) :
    List ExtItem → Except DbErr LoopState
  | [] => .ok st
  | item :: rest =>
    match processItem p st item with
    | .ok st' => runCore p st' rest
    | .error e => .error e

/-- The loop state at the start of a run: a fresh session over `db0` with
the given sequence positions, empty cache, zero counters, no warnings. -/
def initLoop (db0 : DB) (seqCity seqCorpus : Int) : LoopState :=
  { sess := {committed := db0, current := db0, pending := [],
             nextCityId := seqCity, nextCorpusId := seqCorpus},
    cache := [], counters := ⟨0, 0, 0, 0⟩, warnings := [] }

/-- POST /main/import-homes after the external fetch
(main_records.py:378-486): loop over `results`, commit once, then build the
summary. `total_source = len(results)`; the warnings list is truncated to
its first 20 entries (`warnings[:20]`). The summary's city_id is -1 without
a payload city name, else the id found by name — a missing row there gives
`None`, which the response model rejects (modelled as `validationError`);
the corpus_id query carries `or -1`. -/
def import_homes (p : ImportPayload) (db0 : DB) (seqCity seqCorpus : Int)
    (results : List ExtItem) : Except DbErr (ImportSummary × Session) :=
  match runCore p (initLoop db0 seqCity seqCorpus) results with
  | .error e => .error e
  | .ok st =>
    match st.sess.commitAll with
    | .error e => .error e
    | .ok sf =>
      let cityIdE : Except DbErr Int :=
        match p.cityName with
        | none => .ok (-1)
        | some cn =>
          match sf.current.cities.find? (fun c => decide (c.name = pyStrip cn)) with
          | some c => .ok c.id
          | none => .error .validationError
      match cityIdE with
      | .error e => .error e
      | .ok cityId =>
        let corpusId : Int :=
          match p.corpusName with
          | none => -1
          | some kn =>
            match sf.current.corpuses.find? (fun k =>
                decide (k.name = pyStrip kn) &&
                (match p.cityName with
                 | some cn => sf.current.cities.any (fun c =>
                     decide (c.id = k.cityId) && decide (c.name = pyStrip cn))
                 | none => true)) with
            | some k => k.id
            | none => -1
        .ok ({ totalSource := results.length,
               imported := st.counters.imported,
               updated := st.counters.updated,
               unchanged := st.counters.unchanged,
               skipped := st.counters.skipped,
               cityId := cityId, corpusId := corpusId,
               warnings := st.warnings.take 20 }, sf)

/-! ### Derived quantities used by the theorems -/

instance instDecEqExcept {ε α : Type} [DecidableEq ε] [DecidableEq α] :
    DecidableEq (Except ε α) := fun x y =>
  match x, y with
  | .ok a, .ok b =>
    if h : a = b then isTrue (by rw [h]) else isFalse (by simp [h])
  | .error a, .error b =>
    if h : a = b then isTrue (by rw [h]) else isFalse (by simp [h])
  | .ok _, .error _ => isFalse (by simp)
  | .error _, .ok _ => isFalse (by simp)

def countersSum (c : Counters) : Nat :=
  c.imported + c.updated + c.unchanged + c.skipped

def countCitiesNamed (db : DB) (cn : String) : Nat :=
  (db.cities.filter (fun c => decide (c.name = cn))).length

def countCorpusesNamed (db : DB) (cid : Int) (kn : String) : Nat :=
  (db.corpuses.filter (fun k =>
    decide (k.cityId = cid) && decide (k.name = kn))).length

/-- The statuses column of the `main` table, in row order. -/
def recStatuses (db : DB) : List Bool :=
  db.records.map (·.status)

/-! ### Concrete fixtures for the counterexamples and witnesses -/

/-- A store with one city "X", one corpus "Y" in it, and no records. -/
def baseDB : DB :=
  { cities := [⟨1, "X"⟩], corpuses := [⟨1, 1, "Y"⟩], records := [] }

/-- Two source records inserting the same natural key
(corpus "Y", street "S", house "1") under different external ids. -/
def dupItemA : ExtItem :=
  { fields := { id := some 1, street := some "S", sNumber := some "1",
                city := some "X", sLiter := some "Y" }, pk := none }

def dupItemB : ExtItem :=
  { fields := { id := some 2, street := some "S", sNumber := some "1",
                city := some "X", sLiter := some "Y" }, pk := none }

/-- A store holding record 9 = (corpus 1, street "B", no house number). -/
def rekeyDB : DB :=
  { cities := [⟨1, "X"⟩], corpuses := [⟨1, 1, "Y"⟩],
    records := [⟨9, 1, "B", none, true⟩] }

/-- First source record: external id 5, street "A" — a fresh insert. -/
def rekeyItemA : ExtItem :=
  { fields := { id := some 5, street := some "A", sNumber := none,
                city := some "X", sLiter := some "Y" }, pk := none }

/-- Second source record: external id 5 again, street "B" — not found by id
(the id-5 insert is pending, unflushed), so record 9 is found by natural key
and re-keyed to id 5, which the pending insert already takes. -/
def rekeyItemB : ExtItem :=
  { fields := { id := some 5, street := some "B", sNumber := none,
                city := some "X", sLiter := some "Y" }, pk := none }

/-- A store with record (corpus 1, street "S", NULL house number). -/
def nullHouseDB : DB :=
  { cities := [⟨1, "X"⟩], corpuses := [⟨1, 1, "Y"⟩],
    records := [⟨1, 1, "S", none, true⟩] }

def emptyDB : DB := { cities := [], corpuses := [], records := [] }

/-- A fresh session over the empty store. -/
def freshSession : Session :=
  { committed := emptyDB, current := emptyDB, pending := [],
    nextCityId := 1, nextCorpusId := 1 }

/-- The session after resolving ("X", "Y") once on the empty store: city 1
and corpus 1 created, sequences advanced. -/
def resolvedSession : Session :=
  { committed := emptyDB,
    current := { cities := [⟨1, "X"⟩], corpuses := [⟨1, 1, "Y"⟩], records := [] },
    pending := [], nextCityId := 2, nextCorpusId := 2 }

/-- The cache after resolving ("X", "Y") to (1, 1). -/
def resolvedCache : Cache := [(("X", "Y"), (1, 1))]

def pNone : ImportPayload := ⟨none, none⟩

/-- The summary of importing just `dupItemA` into `baseDB`. -/
def oneInsSummary : ImportSummary :=
  { totalSource := 1, imported := 1, updated := 0, unchanged := 0,
    skipped := 0, cityId := -1, corpusId := -1, warnings := [] }

/-- The session after that run: the record committed. -/
def oneInsSession : Session :=
  { committed := { cities := [⟨1, "X"⟩], corpuses := [⟨1, 1, "Y"⟩],
                   records := [⟨1, 1, "S", some "1", true⟩] },
    current := { cities := [⟨1, "X"⟩], corpuses := [⟨1, 1, "Y"⟩],
                 records := [⟨1, 1, "S", some "1", true⟩] },
    pending := [], nextCityId := 2, nextCorpusId := 2 }

/-- A source record with neither `fields.id` nor `pk`. -/
def noIdItem : ExtItem :=
  { fields := { id := none, street := some "S", sNumber := none,
                city := some "X", sLiter := some "Y" }, pk := none }

/-- A source record whose street is blank after stripping. -/
def blankStreetItem : ExtItem :=
  { fields := { id := some 8, street := some "   ", sNumber := none,
                city := some "X", sLiter := some "Y" }, pk := none }

/-- A source record matching record 9 of `rekeyDB` with identical fields. -/
def sameFieldsItem : ExtItem :=
  { fields := { id := some 9, street := some "B", sNumber := none,
                city := some "X", sLiter := some "Y" }, pk := none }

/-- The keys of the pending UPDATE operations, in order. -/
def updKeys (pnd : List PendingOp) : List Int :=
  pnd.filterMap (fun op =>
    match op with
    | .upd k _ => some k
    | .ins _ => none)

/-- The statuses of the pending INSERT rows, in order. -/
def insStatuses (pnd : List PendingOp) : List Bool :=
  pnd.filterMap (fun op =>
    match op with
    | .ins r => some r.status
    | .upd _ _ => none)

/-- Well-formedness of a pending batch relative to the flushed state,
established by the staging discipline of the import loop (with autoflush
off, the flushed state does not move between two flushes, so these are
stable): every pending INSERT carries status true and an id no flushed row
has; every pending UPDATE preserves the status of the row it targets,
either keeps its key as id or moves to an id no flushed row has, targets an
existing row, and the update keys are pairwise distinct. -/
structure PendingGood (db : DB) (pnd : List PendingOp) : Prop where
  insTrue : ∀ r, PendingOp.ins r ∈ pnd → r.status = true
  insFresh : ∀ r, PendingOp.ins r ∈ pnd → ∀ o ∈ db.records, o.id ≠ r.id
  updStatus : ∀ k r, PendingOp.upd k r ∈ pnd →
    ∀ o ∈ db.records, o.id = k → o.status = r.status
  updId : ∀ k r, PendingOp.upd k r ∈ pnd →
    r.id = k ∨ ∀ o ∈ db.records, o.id ≠ r.id
  updKeyExists : ∀ k r, PendingOp.upd k r ∈ pnd → ∃ o ∈ db.records, o.id = k
  keysNodup : (updKeys pnd).Nodup

/-- Run-long invariant of the import session relative to the record table
at the start of the run: the flushed statuses are the original ones
extended by `true`s (newly inserted rows), the flushed ids are pairwise
distinct, and the pending batch is well-formed. -/
structure SessGood (orig : List MainRow) (s : Session) : Prop where
  statuses : ∃ m, recStatuses s.current =
    orig.map (·.status) ++ List.replicate m true
  idsNodup : (s.current.records.map (·.id)).Nodup
  pnd : PendingGood s.current s.pending

/-- During a flush of a batch that is a subset of `pnd`, starting from
`db0`, every intermediate record table consists of rows of `db0` (some
replaced by payloads of pending updates) plus appended payloads of pending
inserts. -/
def RowsFrom (db0 : DB) (pnd : List PendingOp) (db : DB) : Prop :=
  ∀ o ∈ db.records,
    o ∈ db0.records ∨ (∃ k r, PendingOp.upd k r ∈ pnd ∧ o = r) ∨
    (∃ r, PendingOp.ins r ∈ pnd ∧ o = r)

/-- A store whose single record has status false. -/
def statusDB : DB :=
  { cities := [⟨1, "X"⟩], corpuses := [⟨1, 1, "Y"⟩],
    records := [⟨9, 1, "B", none, false⟩] }

/-- A source record updating record 9's street. -/
def updItem : ExtItem :=
  { fields := { id := some 9, street := some "C", sNumber := none,
                city := some "X", sLiter := some "Y" }, pk := none }

/-- The summary of importing [updItem, rekeyItemA] into statusDB. -/
def statusRunSummary : ImportSummary :=
  { totalSource := 2, imported := 1, updated := 1, unchanged := 0,
    skipped := 0, cityId := -1, corpusId := -1, warnings := [] }

/-- The session after that run: record 9 updated (status still false), a
new record 5 inserted with status true. -/
def statusRunSession : Session :=
  { committed := { cities := [⟨1, "X"⟩], corpuses := [⟨1, 1, "Y"⟩],
                   records := [⟨9, 1, "C", none, false⟩,
                               ⟨5, 1, "A", none, true⟩] },
    current := { cities := [⟨1, "X"⟩], corpuses := [⟨1, 1, "Y"⟩],
                 records := [⟨9, 1, "C", none, false⟩,
                             ⟨5, 1, "A", none, true⟩] },
    pending := [], nextCityId := 2, nextCorpusId := 2 }

/-! ## Helper lemmas -/

theorem applyOp_ok_tables {db db' : DB} {op : PendingOp}
    (h : applyOp db op = .ok db') :
    db'.cities = db.cities ∧ db'.corpuses = db.corpuses := by
  cases op with
  | ins r =>
    simp only [applyOp, applyIns] at h
    split at h
    · cases h
    · cases h; exact ⟨rfl, rfl⟩
  | upd k r =>
    simp only [applyOp, applyUpd] at h
    split at h
    · split at h
      · cases h
      · cases h; exact ⟨rfl, rfl⟩
    · cases h

theorem flushOps_ok_tables :
    ∀ (ops : List PendingOp) (db db' : DB), flushOps db ops = .ok db' →
      db'.cities = db.cities ∧ db'.corpuses = db.corpuses := by
  intro ops
  induction ops with
  | nil =>
    intro db db' h
    simp only [flushOps] at h
    cases h
    exact ⟨rfl, rfl⟩
  | cons op rest ih =>
    intro db db' h
    simp only [flushOps] at h
    split at h
    case h_1 db1 hop =>
      have h1 := applyOp_ok_tables hop
      have h2 := ih db1 db' h
      exact ⟨h2.1.trans h1.1, h2.2.trans h1.2⟩
    case h_2 => cases h

theorem flushAll_ok_tables {s s' : Session} (h : s.flushAll = .ok s') :
    s'.current.cities = s.current.cities ∧
    s'.current.corpuses = s.current.corpuses := by
  simp only [Session.flushAll] at h
  split at h
  case h_1 db hdb =>
    cases h
    exact flushOps_ok_tables s.pending s.current db hdb
  case h_2 => cases h

theorem resolveCity_count {s : Session} {cn : String} {cid : Int}
    {s1 : Session} (h : resolveCity s cn = .ok (cid, s1)) :
    countCitiesNamed s1.current cn ≤ countCitiesNamed s.current cn + 1 ∧
    s1.current.corpuses = s.current.corpuses := by
  simp only [resolveCity] at h
  split at h
  case h_1 c hc =>
    cases h
    exact ⟨Nat.le_succ _, rfl⟩
  case h_2 =>
    split at h
    case h_1 => cases h
    case h_2 sf hf =>
      cases h
      have ht := flushAll_ok_tables hf
      constructor
      · simp only [countCitiesNamed, List.filter_append, List.length_append,
          ht.1]
        have hone : (List.filter (fun c => decide (c.name = cn))
            [(⟨sf.nextCityId, cn⟩ : CityRow)]).length ≤ 1 := by
          simp [List.filter]
        omega
      · exact ht.2

theorem resolveCorpus_count {s : Session} {cid : Int} {kn : String}
    {kid : Int} {s2 : Session} (h : resolveCorpus s cid kn = .ok (kid, s2)) :
    countCorpusesNamed s2.current cid kn ≤
      countCorpusesNamed s.current cid kn + 1 ∧
    s2.current.cities = s.current.cities := by
  simp only [resolveCorpus] at h
  split at h
  case h_1 c hc =>
    cases h
    exact ⟨Nat.le_succ _, rfl⟩
  case h_2 =>
    split at h
    case h_1 => cases h
    case h_2 sf hf =>
      cases h
      have ht := flushAll_ok_tables hf
      constructor
      · simp only [countCorpusesNamed, List.filter_append, List.length_append,
          ht.2]
        have hone : (List.filter (fun k =>
            decide (k.cityId = cid) && decide (k.name = kn))
            [(⟨sf.nextCorpusId, cid, kn⟩ : CorpusRow)]).length ≤ 1 := by
          simp [List.filter]
        omega
      · exact ht.1

/-! ## Theorems -/

/-- C2: the spec says a per-record uniqueness violation raised while
inserting or updating is caught, only that record's changes are rolled back,
the record becomes `skipped` with a warning, and the run still commits.
The session is built with `autoflush=False` (db.py:14), so nothing inside
the per-record try block flushes and `except IntegrityError` can never
fire there; the violation surfaces at the final `db.commit()` instead,
propagates, and aborts the whole run. Witnessed here on two source records
that insert the same (corpus, street, house_num): the loop happily counts
`imported = 2` with no skip and no warning, and the run then dies with an
IntegrityError — HTTP 500 and nothing committed — instead of returning a
summary with one record skipped. -/
theorem c2_conflict_aborts_run :
    (runCore ⟨none, none⟩ (initLoop baseDB 2 2) [dupItemA, dupItemB]).toOption.map
        (fun st => (st.counters, st.warnings)) =
      some (⟨2, 0, 0, 0⟩, []) ∧
    import_homes ⟨none, none⟩ baseDB 2 2 [dupItemA, dupItemB] =
      .error .integrityError := by
  constructor <;> decide

/-- C3: the spec says that when re-keying a natural-key match to the
external id is impossible because that id is already taken (a uniqueness
violation), the record is classified `skipped` with a warning naming the
conflict and the run does not fail. In the code the re-key is a plain
attribute assignment `dup.id = int(ext_id)` whose only guarded failure is
the `int()` conversion; a uniqueness violation on the new id is deferred to
the next flush, which happens at the final commit, outside every handler.
Witnessed here: the second source record re-keys record 9 to external id 5
while a pending insert already carries id 5 — the loop classifies it
`updated` (not `skipped`) with no warning, and the whole run then aborts
with an IntegrityError instead of committing. -/
theorem c3_rekey_conflict_aborts_run :
    (runCore ⟨none, none⟩ (initLoop rekeyDB 2 2) [rekeyItemA, rekeyItemB]).toOption.map
        (fun st => (st.counters, st.warnings)) =
      some (⟨1, 1, 0, 0⟩, []) ∧
    import_homes ⟨none, none⟩ rekeyDB 2 2 [rekeyItemA, rekeyItemB] =
      .error .integrityError := by
  constructor <;> decide

/-- C5 counterexample: the claim says a NULL house_num and a literal empty
string are normalized identically and collide as the same natural key in
create_record. They are not: with (corpus 1, street "S", house_num NULL)
already stored, a create with house_num = "" does not match the duplicate
probe (`house_num == ''` does not match NULL) and so does not yield
Conflict — the handler instead reaches `payload.id`, which
schemas.MainCreate does not define, and crashes. For the same reason a
"first insert then Conflict on the second" round-trip through this endpoint
is impossible: even on an empty table the non-duplicate path crashes
without inserting. -/
theorem c5_null_vs_empty_house_num_counterexample :
    create_record nullHouseDB ⟨1, "S", some "", some true⟩ =
      CreateResult.attributeError ∧
    create_record baseDB ⟨1, "S", none, some true⟩ =
      CreateResult.attributeError ∧
    CreateResult.attributeError ≠ CreateResult.conflict := by
  refine ⟨by decide, by decide, by decide⟩

/-- C5 amended: when a record already occupies the exact
(corpus_id, street, house_num) triple — NULL matching only via IS NULL, an
empty string matching only an empty string — create_record answers
Conflict; when the corpus exists and no exact duplicate does, it always
fails with an AttributeError (the handler reads `payload.id`, a field
schemas.MainCreate does not declare) and never inserts. -/
theorem c5_create_record_amended (db : DB) (p : MainCreatePayload)
    (hc : db.corpuses.any (fun c => decide (c.id = p.corpusId)) = true) :
    (db.records.any
        (fun r => appNatKeyMatch r p.corpusId p.street p.houseNum) = true →
      create_record db p = CreateResult.conflict) ∧
    (db.records.any
        (fun r => appNatKeyMatch r p.corpusId p.street p.houseNum) = false →
      create_record db p = CreateResult.attributeError) := by
  unfold create_record
  rw [hc]
  constructor <;> intro h <;> simp [h]

theorem c5_create_record_amended_witness :
    create_record nullHouseDB ⟨1, "S", none, some true⟩ =
      CreateResult.conflict ∧
    create_record nullHouseDB ⟨1, "T", none, some true⟩ =
      CreateResult.attributeError := by
  exact ⟨(c5_create_record_amended nullHouseDB ⟨1, "S", none, some true⟩
            (by decide)).1 (by decide),
         (c5_create_record_amended nullHouseDB ⟨1, "T", none, some true⟩
            (by decide)).2 (by decide)⟩

/-- C8 counterexample: the claim says deleting a Corpus that still owns
Records is rejected and leaves the Corpus and its Records unchanged. The
handler performs no dependent check and `Corpus.main_records` carries
`cascade="all,delete"`, so the delete succeeds and removes both the corpus
and every record it owns: on a store whose corpus 1 owns one record, the
delete returns the store with the corpus list and the record list empty. -/
theorem c8_delete_with_records_counterexample :
    delete_corpus nullHouseDB 1 =
      { cities := [⟨1, "X"⟩], corpuses := [], records := [] } ∧
    nullHouseDB.records ≠ [] ∧ nullHouseDB.corpuses ≠ [] := by
  refine ⟨by decide, by decide, by decide⟩

/-- C8 amended: deleting an existing Corpus through the endpoint always
succeeds and cascades at the ORM level: afterwards no corpus with that id
and no record owned by it remains, every other corpus and record survives,
and the cities table is untouched. (The FK's ondelete=RESTRICT never fires
because the ORM deletes the child records first.) -/
theorem c8_delete_corpus_cascades (db : DB) (cid : Int) (c : CorpusRow)
    (hc : db.corpuses.find? (fun k => decide (k.id = cid)) = some c) :
    (∀ k ∈ (delete_corpus db cid).corpuses, k.id ≠ cid) ∧
    (∀ r ∈ (delete_corpus db cid).records, r.corpusId ≠ cid) ∧
    (∀ k ∈ db.corpuses, k.id ≠ cid → k ∈ (delete_corpus db cid).corpuses) ∧
    (∀ r ∈ db.records, r.corpusId ≠ cid → r ∈ (delete_corpus db cid).records) ∧
    (delete_corpus db cid).cities = db.cities := by
  unfold delete_corpus
  rw [hc]
  refine ⟨?_, ?_, ?_, ?_, rfl⟩
  · intro k hk
    have := List.of_mem_filter hk
    simpa using this
  · intro r hr
    have := List.of_mem_filter hr
    simpa using this
  · intro k hk hne
    exact List.mem_filter.2 ⟨hk, by simpa using hne⟩
  · intro r hr hne
    exact List.mem_filter.2 ⟨hr, by simpa using hne⟩

theorem c8_delete_corpus_cascades_witness :
    (∀ k ∈ (delete_corpus nullHouseDB 1).corpuses, k.id ≠ 1) ∧
    (∀ r ∈ (delete_corpus nullHouseDB 1).records, r.corpusId ≠ 1) := by
  have h := c8_delete_corpus_cascades nullHouseDB 1 ⟨1, 1, "Y"⟩ (by rfl)
  exact ⟨h.1, h.2.1⟩

/-- C9: a successful bulk status call has resolved (city_id, corpus_id) —
directly or from (city_name, corpus_name) — and validated that the corpus
belongs to the given city; it then performs one set-based update: the new
record table is exactly the old one with every record of that corpus set to
the requested status, the returned count equals the number of such records,
records of other corpuses are unchanged, and the cities and corpuses tables
are untouched. Atomicity holds by construction: the update is the single
map below, never a partial subset. -/
theorem c9_bulk_status_change_ok (db : DB) (p : BulkStatusPayload)
    (n : Nat) (cid kid : Int) (db' : DB)
    (h : bulk_status_change db p = .ok n cid kid db') :
    db'.records = db.records.map
      (fun r => if r.corpusId = kid then {r with status := p.status} else r) ∧
    n = (db.records.filter (fun r => decide (r.corpusId = kid))).length ∧
    (∀ r ∈ db'.records, r.corpusId = kid → r.status = p.status) ∧
    (∀ r ∈ db.records, r.corpusId ≠ kid → r ∈ db'.records) ∧
    db'.cities = db.cities ∧ db'.corpuses = db.corpuses ∧
    (∃ c ∈ db.corpuses, c.id = kid ∧ c.cityId = cid) ∧
    (∃ c ∈ db.cities, c.id = cid) := by
  have key : ∀ (st : Bool) (cidv kidv : Int),
      bulkApply db st cidv kidv = .ok n cid kid db' →
      st = p.status →
      db'.records = db.records.map
        (fun r => if r.corpusId = kid then {r with status := p.status} else r) ∧
      n = (db.records.filter (fun r => decide (r.corpusId = kid))).length ∧
      (∀ r ∈ db'.records, r.corpusId = kid → r.status = p.status) ∧
      (∀ r ∈ db.records, r.corpusId ≠ kid → r ∈ db'.records) ∧
      db'.cities = db.cities ∧ db'.corpuses = db.corpuses ∧
      (∃ c ∈ db.corpuses, c.id = kid ∧ c.cityId = cid) ∧
      (∃ c ∈ db.cities, c.id = cid) := by
    intro st cidv kidv hap hst
    subst hst
    simp only [bulkApply] at hap
    split at hap
    · cases hap
    · rename_i hcity
      split at hap
      case h_1 => cases hap
      case h_2 corp hcorp =>
        split at hap
        · rename_i hbelong
          cases hap
          refine ⟨rfl, rfl, ?_, ?_, rfl, rfl, ?_, ?_⟩
          · intro r hr hrk
            rw [List.mem_map] at hr
            obtain ⟨a, _, ha⟩ := hr
            by_cases hak : a.corpusId = kid
            · rw [if_pos hak] at ha
              rw [← ha]
            · rw [if_neg hak] at ha
              rw [← ha] at hrk
              exact absurd hrk hak
          · intro r hr hrk
            rw [List.mem_map]
            exact ⟨r, hr, by rw [if_neg hrk]⟩
          · refine ⟨corp, List.mem_of_find?_eq_some hcorp, ?_,
              of_decide_eq_true hbelong⟩
            have hpred := List.find?_some hcorp
            exact of_decide_eq_true hpred
          · have hany : db.cities.any (fun c => decide (c.id = cid)) = true := by
              simpa using hcity
            rw [List.any_eq_true] at hany
            obtain ⟨c, hc, hcdec⟩ := hany
            exact ⟨c, hc, of_decide_eq_true hcdec⟩
        · cases hap
  simp only [bulk_status_change] at h
  repeat' split at h
  all_goals first
    | exact key _ _ _ h rfl
    | cases h
  all_goals rename_i heq
  all_goals repeat' split at heq
  all_goals cases heq

theorem c9_bulk_status_change_ok_witness :
    (∀ r ∈ (DB.mk [⟨1, "X"⟩] [⟨1, 1, "Y"⟩]
        [⟨1, 1, "S", none, true⟩, ⟨2, 1, "T", some "3", false⟩]).records.map
          (fun r => if r.corpusId = 1 then {r with status := false} else r),
      r.corpusId = 1 → r.status = false) ∧
    (2 : Nat) = ((DB.mk [⟨1, "X"⟩] [⟨1, 1, "Y"⟩]
        [⟨1, 1, "S", none, true⟩, ⟨2, 1, "T", some "3", false⟩]).records.filter
          (fun r => decide (r.corpusId = 1))).length := by
  have h := c9_bulk_status_change_ok
    (DB.mk [⟨1, "X"⟩] [⟨1, 1, "Y"⟩]
      [⟨1, 1, "S", none, true⟩, ⟨2, 1, "T", some "3", false⟩])
    ⟨false, some 1, some 1, none, none⟩ 2 1 1
    (DB.mk [⟨1, "X"⟩] [⟨1, 1, "Y"⟩]
      [⟨1, 1, "S", none, false⟩, ⟨2, 1, "T", some "3", false⟩])
    (by decide)
  refine ⟨?_, h.2.1⟩
  intro r hr
  rw [← h.1] at hr
  exact h.2.2.1 r hr

/-- C6: once the resolver has answered a (city_name, corpus_name) pair in a
run, every later call with the identical pair is served from the per-run
cache: it returns the same (city_id, corpus_id), changes nothing, and does
not consult the store at all — the result is the same for every session
state. Moreover one resolution creates at most one city row with that name
and at most one corpus row with that (city_id, name), so the second call
leaves the creation count at one. -/
theorem c6_resolver_memoization (s : Session) (cache : Cache)
    (cn kn : String) (pr : Int × Int) (s1 : Session) (cache1 : Cache)
    (h : get_or_create_city_corpus s cache (some cn) (some kn) =
      .ok (some pr, s1, cache1)) :
    (∀ s' : Session, get_or_create_city_corpus s' cache1 (some cn) (some kn) =
      .ok (some pr, s', cache1)) ∧
    countCitiesNamed s1.current cn ≤ countCitiesNamed s.current cn + 1 ∧
    countCorpusesNamed s1.current pr.1 kn ≤
      countCorpusesNamed s.current pr.1 kn + 1 := by
  simp only [get_or_create_city_corpus] at h
  split at h
  · cases h
  · rename_i hnames
    simp only [Option.getD] at h
    split at h
    case h_1 pr0 hcache =>
      cases h
      refine ⟨?_, Nat.le_succ _, Nat.le_succ _⟩
      intro s'
      simp only [get_or_create_city_corpus]
      rw [if_neg (by exact fun hc => hnames hc)]
      simp only [Option.getD]
      rw [hcache]
    case h_2 hcache =>
      split at h
      · cases h
      · rename_i cid sc hcity
        split at h
        · cases h
        · rename_i kid sk hcorp
          cases h
          obtain ⟨hc1, hc2⟩ := resolveCity_count hcity
          obtain ⟨hk1, hk2⟩ := resolveCorpus_count hcorp
          refine ⟨?_, ?_, ?_⟩
          · intro s'
            simp only [get_or_create_city_corpus]
            rw [if_neg (by exact fun hcnd => hnames hcnd)]
            simp only [Option.getD, cacheLookup, List.find?]
            simp
          · simp only [countCitiesNamed] at hc1 ⊢
            rw [hk2]
            exact hc1
          · simp only [countCorpusesNamed] at hk1 ⊢
            rw [hc2] at hk1
            exact hk1

theorem c6_resolver_memoization_witness :
    get_or_create_city_corpus resolvedSession resolvedCache
        (some "X") (some "Y") =
      .ok (some (1, 1), resolvedSession, resolvedCache) ∧
    countCitiesNamed resolvedSession.current "X" ≤
      countCitiesNamed freshSession.current "X" + 1 := by
  have h := c6_resolver_memoization freshSession [] "X" "Y" (1, 1)
    resolvedSession resolvedCache (by rfl)
  exact ⟨h.1 resolvedSession, h.2.1⟩

theorem reconcile_counters (st : LoopState) (eid kid : Int) (street : String)
    (hn : Option String) :
    countersSum (reconcile st eid kid street hn).counters =
      countersSum st.counters + 1 := by
  simp only [reconcile]
  split
  · split
    · simp [countersSum]
      omega
    · simp [countersSum]
      omega
  · split
    · simp [countersSum]
      omega
    · simp [countersSum]
      omega

theorem processItem_counters {p : ImportPayload} {st st' : LoopState}
    {item : ExtItem} (h : processItem p st item = .ok st') :
    countersSum st'.counters = countersSum st.counters + 1 := by
  simp only [processItem] at h
  split at h
  · cases h
    simp [skipWith, countersSum]
    omega
  · split at h
    · cases h
      simp [skipWith, countersSum]
      omega
    · split at h
      · cases h
      · cases h
        simp [skipWith, countersSum]
        omega
      · cases h
        rw [reconcile_counters]

theorem runCore_counters {p : ImportPayload} :
    ∀ (items : List ExtItem) (st st' : LoopState),
      runCore p st items = .ok st' →
      countersSum st'.counters = countersSum st.counters + items.length := by
  intro items
  induction items with
  | nil =>
    intro st st' h
    simp only [runCore] at h
    cases h
    simp
  | cons item rest ih =>
    intro st st' h
    simp only [runCore] at h
    split at h
    case h_1 st1 hstep =>
      have h1 := processItem_counters hstep
      have h2 := ih st1 st' h
      rw [h2, h1, List.length_cons]
      omega
    case h_2 => cases h

/-- C1: whenever an import run returns a Summary, its counters satisfy the
equation imported + updated + unchanged + skipped = total_source, and
total_source equals the length of the list returned by the external source —
every loop iteration bumps exactly one of the four counters by one,
regardless of how many records were skipped. -/
theorem c1_summary_counters (p : ImportPayload) (db0 : DB)
    (seqCity seqCorpus : Int) (results : List ExtItem)
    (sum : ImportSummary) (sf : Session)
    (h : import_homes p db0 seqCity seqCorpus results = .ok (sum, sf)) :
    sum.imported + sum.updated + sum.unchanged + sum.skipped =
      sum.totalSource ∧
    sum.totalSource = results.length := by
  simp only [import_homes] at h
  split at h
  case h_1 => cases h
  case h_2 st hrun =>
    have hc := runCore_counters results (initLoop db0 seqCity seqCorpus) st hrun
    split at h
    case h_1 => cases h
    case h_2 sfc hcommit =>
      split at h
      case h_1 => cases h
      case h_2 cityId hcity =>
        cases h
        refine ⟨?_, rfl⟩
        simpa [countersSum, initLoop] using hc

theorem c1_summary_counters_witness :
    oneInsSummary.imported + oneInsSummary.updated + oneInsSummary.unchanged +
      oneInsSummary.skipped = oneInsSummary.totalSource ∧
    oneInsSummary.totalSource = [dupItemA].length :=
  c1_summary_counters pNone baseDB 2 2 [dupItemA] oneInsSummary
    oneInsSession (by rfl)

/-- C7: a source record with no external id, or with a street that is blank
after stripping, is classified skipped with exactly one warning appended for
it, the session and cache are untouched, and the loop continues (the step
returns normally, never an error). At the end of the run the summary's
warnings list is the 20-element truncation of the accumulated list. -/
theorem c7_malformed_skipped_and_warning_cap :
    (∀ (p : ImportPayload) (st : LoopState) (item : ExtItem),
      extIdOf item = none →
      processItem p st item =
        .ok (skipWith st "Missing id in source record")) ∧
    (∀ (p : ImportPayload) (st : LoopState) (item : ExtItem) (eid : Int),
      extIdOf item = some eid → streetOf item = "" →
      processItem p st item = .ok (skipWith st s!"id={eid}: empty street")) ∧
    (∀ (p : ImportPayload) (db0 : DB) (seqCity seqCorpus : Int)
      (results : List ExtItem) (sum : ImportSummary) (sf : Session),
      import_homes p db0 seqCity seqCorpus results = .ok (sum, sf) →
      ∃ st, runCore p (initLoop db0 seqCity seqCorpus) results = .ok st ∧
        sum.warnings = st.warnings.take 20 ∧ sum.warnings.length ≤ 20) := by
  refine ⟨?_, ?_, ?_⟩
  · intro p st item hid
    simp only [processItem, hid]
  · intro p st item eid hid hstreet
    simp only [processItem, hid, hstreet]
    simp
  · intro p db0 seqCity seqCorpus results sum sf h
    simp only [import_homes] at h
    split at h
    case h_1 => cases h
    case h_2 st hrun =>
      refine ⟨st, hrun, ?_⟩
      split at h
      case h_1 => cases h
      case h_2 sfc hcommit =>
        split at h
        case h_1 => cases h
        case h_2 cityId hcity =>
          cases h
          refine ⟨rfl, ?_⟩
          rw [List.length_take]
          exact Nat.min_le_left _ _

theorem c7_malformed_skipped_witness :
    processItem pNone (initLoop baseDB 2 2) noIdItem =
      .ok (skipWith (initLoop baseDB 2 2) "Missing id in source record") ∧
    processItem pNone (initLoop baseDB 2 2) blankStreetItem =
      .ok (skipWith (initLoop baseDB 2 2) s!"id={(8 : Int)}: empty street") :=
  ⟨c7_malformed_skipped_and_warning_cap.1 pNone (initLoop baseDB 2 2)
      noIdItem rfl,
   c7_malformed_skipped_and_warning_cap.2.1 pNone (initLoop baseDB 2 2)
      blankStreetItem 8 rfl rfl⟩

/-- C4: when a source record's external id is found (through the session),
the loaded row's corpus_id, street and normalized house_num are compared
field-by-field with the incoming values: if all three are equal the record
is classified unchanged and nothing at all is staged (the session state is
exactly the resolver's output); if any differs, the record is classified
updated and the staged row is the loaded row with exactly those three
fields replaced by the incoming values — id and status are untouched. -/
theorem c4_id_match_update_vs_unchanged (p : ImportPayload) (st : LoopState)
    (item : ExtItem) (eid kid cid : Int) (s' : Session) (cache' : Cache)
    (r : MainRow)
    (hid : extIdOf item = some eid)
    (hstreet : streetOf item ≠ "")
    (hres : get_or_create_city_corpus st.sess st.cache
      (cityNameOf p item) (corpusNameOf p item) = .ok (some (cid, kid), s', cache'))
    (hget : sessGet s' eid = some r) :
    processItem p st item = .ok
      (if r.corpusId = kid ∧ r.street = streetOf item ∧
          r.houseNum = houseNumOf item then
        { st with
          sess := s'
          cache := cache'
          counters :=
            {st.counters with unchanged := st.counters.unchanged + 1} }
      else
        { st with
          sess := stageUpd s' eid
            { r with
              corpusId := kid
              street := streetOf item
              houseNum := houseNumOf item }
          cache := cache'
          counters :=
            {st.counters with updated := st.counters.updated + 1} }) := by
  simp only [processItem, hid]
  rw [if_neg hstreet, hres]
  simp only [reconcile, hget]

theorem c4_id_match_witness :
    (processItem pNone (initLoop rekeyDB 2 2) sameFieldsItem).toOption.map
        (fun st => st.counters) = some ⟨0, 0, 1, 0⟩ := by
  rw [c4_id_match_update_vs_unchanged pNone (initLoop rekeyDB 2 2)
    sameFieldsItem 9 1 1 (initLoop rekeyDB 2 2).sess resolvedCache
    ⟨9, 1, "B", none, true⟩ rfl (by decide) rfl rfl]
  rfl

/-! ## Lemmas for the status frame property (C10) -/

theorem pendingUpdLookup_none {pnd : List PendingOp} {k : Int}
    (h : pendingUpdLookup pnd k = none) :
    ∀ r : MainRow, PendingOp.upd k r ∉ pnd := by
  intro r hmem
  rw [pendingUpdLookup, List.findSome?_eq_none_iff] at h
  have := h _ hmem
  simp at this

theorem pendingUpdLookup_some {pnd : List PendingOp} {k : Int} {r : MainRow}
    (h : pendingUpdLookup pnd k = some r) :
    PendingOp.upd k r ∈ pnd := by
  rw [pendingUpdLookup] at h
  obtain ⟨op, hmem, hop⟩ := List.exists_of_findSome?_eq_some h
  cases op with
  | ins r0 => simp at hop
  | upd k' r0 =>
    simp only at hop
    split at hop
    · rename_i hk
      cases hop
      rw [hk] at hmem
      exact hmem
    · cases hop

theorem mem_updKeys {pnd : List PendingOp} {k : Int} {r : MainRow}
    (h : PendingOp.upd k r ∈ pnd) : k ∈ updKeys pnd := by
  rw [updKeys, List.mem_filterMap]
  exact ⟨.upd k r, h, rfl⟩

theorem pendingUpd_unique {pnd : List PendingOp}
    (hnd : (updKeys pnd).Nodup) {k : Int} {a b : MainRow}
    (ha : PendingOp.upd k a ∈ pnd) (hb : PendingOp.upd k b ∈ pnd) :
    a = b := by
  induction pnd with
  | nil => cases ha
  | cons op rest ih =>
    cases op with
    | ins r0 =>
      have hnd' : (updKeys rest).Nodup := by
        simpa [updKeys, List.filterMap_cons] using hnd
      rcases List.mem_cons.1 ha with h1 | h1
      · cases h1
      · rcases List.mem_cons.1 hb with h2 | h2
        · cases h2
        · exact ih hnd' h1 h2
    | upd k0 r0 =>
      have hkeys : updKeys (PendingOp.upd k0 r0 :: rest) = k0 :: updKeys rest := by
        simp [updKeys, List.filterMap_cons]
      rw [hkeys, List.nodup_cons] at hnd
      rcases List.mem_cons.1 ha with h1 | h1
      · rcases List.mem_cons.1 hb with h2 | h2
        · -- both are the head
          injection h1 with hk1 hr1
          injection h2 with hk2 hr2
          rw [hr1, hr2]
        · -- a is the head, b in the tail: key collision
          injection h1 with hk1 hr1
          exact absurd (hk1 ▸ mem_updKeys h2) hnd.1
      · rcases List.mem_cons.1 hb with h2 | h2
        · injection h2 with hk2 hr2
          exact absurd (hk2 ▸ mem_updKeys h1) hnd.1
        · exact ih hnd.2 h1 h2

theorem rowBad_false_no_id_clash {db : DB} {others : List MainRow}
    {r : MainRow} (h : rowBad db others r = false) :
    ∀ o ∈ others, o.id ≠ r.id := by
  intro o ho
  simp only [rowBad, Bool.or_eq_false_iff, List.any_eq_false,
    decide_eq_false_iff_not] at h
  have := h.2 o ho
  simp only [Bool.or_eq_true, decide_eq_true_eq, not_or] at this
  exact this.1

theorem applyIns_ok {db db' : DB} {r : MainRow}
    (h : applyIns db r = .ok db') :
    db'.records = db.records ++ [r] ∧
    ∀ o ∈ db.records, o.id ≠ r.id := by
  simp only [applyIns] at h
  split at h
  · cases h
  · rename_i hbad
    cases h
    rw [Bool.not_eq_true] at hbad
    exact ⟨rfl, rowBad_false_no_id_clash hbad⟩

theorem applyUpd_ok {db db' : DB} {k : Int} {r : MainRow}
    (h : applyUpd db k r = .ok db') :
    db'.records = db.records.map (fun o => if o.id = k then r else o) ∧
    ∀ o ∈ db.records, o.id ≠ k → o.id ≠ r.id := by
  simp only [applyUpd] at h
  split at h
  · split at h
    · cases h
    · rename_i hexists hbad
      cases h
      rw [Bool.not_eq_true] at hbad
      refine ⟨rfl, ?_⟩
      intro o ho hne
      refine rowBad_false_no_id_clash hbad o ?_
      rw [List.mem_filter]
      exact ⟨ho, by simpa using hne⟩
  · cases h

theorem applyIns_statuses {db db' : DB} {r : MainRow}
    (h : applyIns db r = .ok db') :
    recStatuses db' = recStatuses db ++ [r.status] := by
  rw [recStatuses, (applyIns_ok h).1, List.map_append]
  rfl

theorem applyUpd_statuses {db db' : DB} {k : Int} {r : MainRow}
    (hB : ∀ o ∈ db.records, o.id = k → o.status = r.status)
    (h : applyUpd db k r = .ok db') :
    recStatuses db' = recStatuses db := by
  rw [recStatuses, (applyUpd_ok h).1, recStatuses, List.map_map]
  refine List.map_congr_left ?_
  intro o ho
  by_cases hk : o.id = k
  · simp only [Function.comp_apply, if_pos hk]
    exact (hB o ho hk).symm
  · simp only [Function.comp_apply, if_neg hk]

theorem nodup_ids_replace {l : List MainRow} {k : Int} {r : MainRow}
    (hnd : (l.map (·.id)).Nodup)
    (hfresh : ∀ o ∈ l, o.id ≠ k → o.id ≠ r.id) :
    ((l.map (fun o => if o.id = k then r else o)).map (·.id)).Nodup := by
  induction l with
  | nil => simp
  | cons o t ih =>
    simp only [List.map_cons, List.nodup_cons] at hnd ⊢
    obtain ⟨hno, hndt⟩ := hnd
    have ihapp := ih hndt
      (fun a ha hne => hfresh a (List.mem_cons_of_mem _ ha) hne)
    by_cases hk : o.id = k
    · rw [if_pos hk]
      refine ⟨?_, ihapp⟩
      intro hmem
      rw [List.mem_map] at hmem
      obtain ⟨b, hb, hbid⟩ := hmem
      rw [List.mem_map] at hb
      obtain ⟨a, ha, hab⟩ := hb
      by_cases hak : a.id = k
      · exact hno (List.mem_map.2 ⟨a, ha, by rw [hak, hk]⟩)
      · rw [if_neg hak] at hab
        have hne : a.id ≠ r.id := hfresh a (List.mem_cons_of_mem _ ha) hak
        rw [hab] at hne
        exact hne hbid
    · rw [if_neg hk]
      refine ⟨?_, ihapp⟩
      intro hmem
      rw [List.mem_map] at hmem
      obtain ⟨b, hb, hbid⟩ := hmem
      rw [List.mem_map] at hb
      obtain ⟨a, ha, hab⟩ := hb
      by_cases hak : a.id = k
      · rw [if_pos hak] at hab
        have hor : o.id ≠ r.id := hfresh o (List.mem_cons_self _ _) hk
        rw [← hab] at hbid
        exact hor hbid.symm
      · rw [if_neg hak] at hab
        refine hno (List.mem_map.2 ⟨a, ha, ?_⟩)
        rw [hab]
        exact hbid

theorem applyIns_nodup {db db' : DB} {r : MainRow}
    (h : applyIns db r = .ok db')
    (hnd : (db.records.map (·.id)).Nodup) :
    (db'.records.map (·.id)).Nodup := by
  obtain ⟨hrec, hfresh⟩ := applyIns_ok h
  rw [hrec, List.map_append, List.nodup_append]
  refine ⟨hnd, List.nodup_singleton _, ?_⟩
  intro x hx hmem
  rw [List.mem_map] at hx
  obtain ⟨o, ho, rfl⟩ := hx
  simp only [List.map_cons, List.map_nil, List.mem_singleton] at hmem
  exact hfresh o ho hmem

theorem applyUpd_nodup {db db' : DB} {k : Int} {r : MainRow}
    (h : applyUpd db k r = .ok db')
    (hnd : (db.records.map (·.id)).Nodup) :
    (db'.records.map (·.id)).Nodup := by
  obtain ⟨hrec, hfresh⟩ := applyUpd_ok h
  rw [hrec]
  exact nodup_ids_replace hnd hfresh

theorem flushOps_nodup :
    ∀ (ops : List PendingOp) (db db' : DB), flushOps db ops = .ok db' →
      (db.records.map (·.id)).Nodup → (db'.records.map (·.id)).Nodup := by
  intro ops
  induction ops with
  | nil =>
    intro db db' h hnd
    simp only [flushOps] at h
    cases h
    exact hnd
  | cons op rest ih =>
    intro db db' h hnd
    simp only [flushOps] at h
    split at h
    case h_1 db1 hop =>
      refine ih db1 db' h ?_
      cases op with
      | ins r => exact applyIns_nodup hop hnd
      | upd k r => exact applyUpd_nodup hop hnd
    case h_2 => cases h

theorem flushOps_statuses_aux {db0 : DB} {pnd : List PendingOp}
    (hg : PendingGood db0 pnd) :
    ∀ (rest : List PendingOp) (db db' : DB),
      (∀ op ∈ rest, op ∈ pnd) →
      RowsFrom db0 pnd db →
      flushOps db rest = .ok db' →
      recStatuses db' = recStatuses db ++ insStatuses rest ∧
      RowsFrom db0 pnd db' := by
  intro rest
  induction rest with
  | nil =>
    intro db db' hsub hrows h
    simp only [flushOps] at h
    cases h
    exact ⟨by simp [insStatuses], hrows⟩
  | cons op rest ih =>
    intro db db' hsub hrows h
    simp only [flushOps] at h
    split at h
    case h_2 => cases h
    case h_1 db1 hop =>
      have hsub' : ∀ o ∈ rest, o ∈ pnd :=
        fun o ho => hsub o (List.mem_cons_of_mem _ ho)
      have hopmem : op ∈ pnd := hsub op (List.mem_cons_self _ _)
      cases op with
      | ins r =>
        obtain ⟨hrec, _⟩ := applyIns_ok hop
        have hst : recStatuses db1 = recStatuses db ++ [r.status] :=
          applyIns_statuses hop
        have hrows1 : RowsFrom db0 pnd db1 := by
          intro o ho
          rw [hrec, List.mem_append] at ho
          rcases ho with ho | ho
          · exact hrows o ho
          · simp only [List.mem_singleton] at ho
            exact Or.inr (Or.inr ⟨r, hopmem, ho⟩)
        obtain ⟨hst', hrows'⟩ := ih db1 db' hsub' hrows1 h
        refine ⟨?_, hrows'⟩
        rw [hst', hst, List.append_assoc]
        congr 1
      | upd k r =>
        have hB : ∀ o ∈ db.records, o.id = k → o.status = r.status := by
          intro o ho hok
          rcases hrows o ho with hmem | ⟨k', r', hmem', heq⟩ | ⟨r0, hmem0, heq⟩
          · exact hg.updStatus k r hopmem o hmem hok
          · subst heq
            by_cases hk : k' = k
            · subst hk
              rw [pendingUpd_unique hg.keysNodup hmem' hopmem]
            · rcases hg.updId k' o hmem' with hid | hfresh
              · exact absurd (hid ▸ hok) hk
              · obtain ⟨o0, ho0, hko⟩ := hg.updKeyExists k r hopmem
                exact absurd (hko.trans hok.symm) (hfresh o0 ho0)
          · subst heq
            obtain ⟨o0, ho0, hko⟩ := hg.updKeyExists k r hopmem
            exact absurd (hko.trans hok.symm) (hg.insFresh o hmem0 o0 ho0)
        have hst : recStatuses db1 = recStatuses db := applyUpd_statuses hB hop
        have hrows1 : RowsFrom db0 pnd db1 := by
          intro o ho
          rw [(applyUpd_ok hop).1, List.mem_map] at ho
          obtain ⟨a, ha, hao⟩ := ho
          by_cases hak : a.id = k
          · rw [if_pos hak] at hao
            exact Or.inr (Or.inl ⟨k, r, hopmem, hao.symm⟩)
          · rw [if_neg hak] at hao
            exact hao ▸ hrows a ha
        obtain ⟨hst', hrows'⟩ := ih db1 db' hsub' hrows1 h
        refine ⟨?_, hrows'⟩
        rw [hst', hst]
        congr 1

theorem insStatuses_true {pnd : List PendingOp}
    (h : ∀ r, PendingOp.ins r ∈ pnd → r.status = true) :
    ∃ m, insStatuses pnd = List.replicate m true := by
  refine ⟨(insStatuses pnd).length, List.eq_replicate_of_mem ?_⟩
  intro b hb
  rw [insStatuses, List.mem_filterMap] at hb
  obtain ⟨op, hmem, hop⟩ := hb
  cases op with
  | ins r =>
    simp only [Option.some.injEq] at hop
    rw [← hop]
    exact h r hmem
  | upd k r => simp at hop

theorem pendingGood_nil (db : DB) : PendingGood db [] := by
  constructor <;> simp [updKeys]

theorem flushAll_sessGood {orig : List MainRow} {s s' : Session}
    (hs : SessGood orig s) (h : s.flushAll = .ok s') : SessGood orig s' := by
  simp only [Session.flushAll] at h
  split at h
  case h_2 => cases h
  case h_1 db hdb =>
    cases h
    obtain ⟨m, hm⟩ := hs.statuses
    obtain ⟨n, hn⟩ := insStatuses_true hs.pnd.insTrue
    refine ⟨⟨m + n, ?_⟩, ?_, pendingGood_nil _⟩
    · have hst := (flushOps_statuses_aux hs.pnd s.pending s.current db
        (fun _ ho => ho) (fun o ho => Or.inl ho) hdb).1
      rw [hst, hm, hn, List.append_assoc, List.replicate_add]
    · exact flushOps_nodup s.pending s.current db hdb hs.idsNodup

theorem not_mem_updKeys {pnd : List PendingOp} {k : Int}
    (h : pendingUpdLookup pnd k = none) : k ∉ updKeys pnd := by
  intro hmem
  rw [updKeys, List.mem_filterMap] at hmem
  obtain ⟨op, hop, hopk⟩ := hmem
  cases op with
  | ins r => simp at hopk
  | upd k' r =>
    simp only [Option.some.injEq] at hopk
    subst hopk
    exact pendingUpdLookup_none h r hop

theorem updKeys_stage_map {pnd : List PendingOp} {k : Int} {r : MainRow} :
    updKeys (pnd.map (fun op =>
      match op with
      | .upd k' r0 => if k' = k then .upd k r else .upd k' r0
      | .ins r0 => .ins r0)) = updKeys pnd := by
  induction pnd with
  | nil => rfl
  | cons op rest ih =>
    cases op with
    | ins r0 =>
      simp only [List.map_cons, updKeys, List.filterMap_cons] at ih ⊢
      exact ih
    | upd k' r0 =>
      by_cases hk : k' = k
      · subst hk
        simp only [updKeys, List.filterMap_cons, List.map_cons] at ih ⊢
        simp [ih]
      · simp only [updKeys, List.filterMap_cons, List.map_cons] at ih ⊢
        simp [hk, ih]

theorem mem_stage_map {pnd : List PendingOp} {k : Int} {r : MainRow}
    {op' : PendingOp}
    (h : op' ∈ pnd.map (fun op =>
      match op with
      | .upd k' r0 => if k' = k then .upd k r else .upd k' r0
      | .ins r0 => .ins r0)) :
    (∃ r0, op' = .ins r0 ∧ PendingOp.ins r0 ∈ pnd) ∨
    (op' = .upd k r ∧ ∃ r0, PendingOp.upd k r0 ∈ pnd) ∨
    (∃ k' r0, op' = .upd k' r0 ∧ k' ≠ k ∧ PendingOp.upd k' r0 ∈ pnd) := by
  rw [List.mem_map] at h
  obtain ⟨op, hop, hgop⟩ := h
  cases op with
  | ins r0 => exact Or.inl ⟨r0, hgop.symm, hop⟩
  | upd k' r0 =>
    dsimp only at hgop
    by_cases hk : k' = k
    · subst hk
      rw [if_pos rfl] at hgop
      exact Or.inr (Or.inl ⟨hgop.symm, r0, hop⟩)
    · rw [if_neg hk] at hgop
      exact Or.inr (Or.inr ⟨k', r0, hgop.symm, hk, hop⟩)

theorem stageUpd_sessGood {orig : List MainRow} {s : Session}
    (hs : SessGood orig s) {k : Int} {r : MainRow}
    (hstat : ∀ o ∈ s.current.records, o.id = k → o.status = r.status)
    (hid : r.id = k ∨ ∀ o ∈ s.current.records, o.id ≠ r.id)
    (hkey : ∃ o ∈ s.current.records, o.id = k) :
    SessGood orig (stageUpd s k r) := by
  by_cases hc : (pendingUpdLookup s.pending k).isSome
  · rw [stageUpd, if_pos hc]
    refine ⟨hs.statuses, hs.idsNodup, ?_⟩
    constructor
    · intro r0 hmem
      rcases mem_stage_map hmem with ⟨r1, heq, h1⟩ | ⟨heq, _⟩ | ⟨k', r1, heq, _, _⟩
      · injection heq with h2
        exact h2 ▸ hs.pnd.insTrue r1 h1
      · cases heq
      · cases heq
    · intro r0 hmem
      rcases mem_stage_map hmem with ⟨r1, heq, h1⟩ | ⟨heq, _⟩ | ⟨k', r1, heq, _, _⟩
      · injection heq with h2
        exact h2 ▸ hs.pnd.insFresh r1 h1
      · cases heq
      · cases heq
    · intro k2 r2 hmem
      rcases mem_stage_map hmem with ⟨r1, heq, h1⟩ | ⟨heq, _⟩ |
        ⟨k', r1, heq, hne, h1⟩
      · cases heq
      · injection heq with h2 h3
        subst h2; subst h3
        exact hstat
      · injection heq with h2 h3
        subst h2; subst h3
        exact hs.pnd.updStatus k2 r2 h1
    · intro k2 r2 hmem
      rcases mem_stage_map hmem with ⟨r1, heq, h1⟩ | ⟨heq, _⟩ |
        ⟨k', r1, heq, hne, h1⟩
      · cases heq
      · injection heq with h2 h3
        subst h2; subst h3
        exact hid
      · injection heq with h2 h3
        subst h2; subst h3
        exact hs.pnd.updId k2 r2 h1
    · intro k2 r2 hmem
      rcases mem_stage_map hmem with ⟨r1, heq, h1⟩ | ⟨heq, _⟩ |
        ⟨k', r1, heq, hne, h1⟩
      · cases heq
      · injection heq with h2 h3
        subst h2
        exact hkey
      · injection heq with h2 h3
        subst h2
        exact hs.pnd.updKeyExists k2 r1 (h3 ▸ h1)
    · rw [updKeys_stage_map]
      exact hs.pnd.keysNodup
  · rw [stageUpd, if_neg hc]
    rw [Option.not_isSome_iff_eq_none] at hc
    refine ⟨hs.statuses, hs.idsNodup, ?_⟩
    constructor
    · intro r0 hmem
      rcases List.mem_append.1 hmem with h1 | h1
      · exact hs.pnd.insTrue r0 h1
      · simp only [List.mem_singleton] at h1
        cases h1
    · intro r0 hmem
      rcases List.mem_append.1 hmem with h1 | h1
      · exact hs.pnd.insFresh r0 h1
      · simp only [List.mem_singleton] at h1
        cases h1
    · intro k2 r2 hmem
      rcases List.mem_append.1 hmem with h1 | h1
      · exact hs.pnd.updStatus k2 r2 h1
      · simp only [List.mem_singleton] at h1
        injection h1 with h2 h3
        subst h2; subst h3
        exact hstat
    · intro k2 r2 hmem
      rcases List.mem_append.1 hmem with h1 | h1
      · exact hs.pnd.updId k2 r2 h1
      · simp only [List.mem_singleton] at h1
        injection h1 with h2 h3
        subst h2; subst h3
        exact hid
    · intro k2 r2 hmem
      rcases List.mem_append.1 hmem with h1 | h1
      · exact hs.pnd.updKeyExists k2 r2 h1
      · simp only [List.mem_singleton] at h1
        injection h1 with h2 h3
        subst h2
        exact hkey
    · have hkeys : updKeys (s.pending ++ [PendingOp.upd k r]) =
          updKeys s.pending ++ [k] := by
        simp [updKeys, List.filterMap_append]
      rw [hkeys, List.nodup_append]
      refine ⟨hs.pnd.keysNodup, List.nodup_singleton _, ?_⟩
      intro x hx hmem
      simp only [List.mem_singleton] at hmem
      subst hmem
      exact not_mem_updKeys hc hx

theorem stageIns_sessGood {orig : List MainRow} {s : Session}
    (hs : SessGood orig s) {r : MainRow} (htrue : r.status = true)
    (hfresh : ∀ o ∈ s.current.records, o.id ≠ r.id) :
    SessGood orig (stageIns s r) := by
  refine ⟨hs.statuses, hs.idsNodup, ?_⟩
  constructor
  · intro r0 hmem
    rcases List.mem_append.1 hmem with h1 | h1
    · exact hs.pnd.insTrue r0 h1
    · simp only [List.mem_singleton] at h1
      injection h1 with h2
      subst h2
      exact htrue
  · intro r0 hmem
    rcases List.mem_append.1 hmem with h1 | h1
    · exact hs.pnd.insFresh r0 h1
    · simp only [List.mem_singleton] at h1
      injection h1 with h2
      subst h2
      exact hfresh
  · intro k2 r2 hmem
    rcases List.mem_append.1 hmem with h1 | h1
    · exact hs.pnd.updStatus k2 r2 h1
    · simp only [List.mem_singleton] at h1
      cases h1
  · intro k2 r2 hmem
    rcases List.mem_append.1 hmem with h1 | h1
    · exact hs.pnd.updId k2 r2 h1
    · simp only [List.mem_singleton] at h1
      cases h1
  · intro k2 r2 hmem
    rcases List.mem_append.1 hmem with h1 | h1
    · exact hs.pnd.updKeyExists k2 r2 h1
    · simp only [List.mem_singleton] at h1
      cases h1
  · have hkeys : updKeys (s.pending ++ [PendingOp.ins r]) =
        updKeys s.pending := by
      simp [updKeys, List.filterMap_append]
    show (updKeys (s.pending ++ [PendingOp.ins r])).Nodup
    rw [hkeys]
    exact hs.pnd.keysNodup

theorem nodup_map_id_inj {l : List MainRow}
    (hnd : (l.map (·.id)).Nodup) {a b : MainRow}
    (ha : a ∈ l) (hb : b ∈ l) (hid : a.id = b.id) : a = b :=
  List.inj_on_of_nodup_map hnd ha hb hid

theorem pendingGood_records_eq {db db' : DB} {pnd : List PendingOp}
    (h : db'.records = db.records) (hg : PendingGood db pnd) :
    PendingGood db' pnd := by
  constructor
  · exact hg.insTrue
  · intro r hr
    rw [h]
    exact hg.insFresh r hr
  · intro k r hm
    rw [h]
    exact hg.updStatus k r hm
  · intro k r hm
    rcases hg.updId k r hm with h1 | h1
    · exact Or.inl h1
    · refine Or.inr ?_
      rw [h]
      exact h1
  · intro k r hm
    rw [h]
    exact hg.updKeyExists k r hm
  · exact hg.keysNodup

theorem resolveCity_sessGood {orig : List MainRow} {s : Session}
    {cn : String} {cid : Int} {s1 : Session} (hs : SessGood orig s)
    (h : resolveCity s cn = .ok (cid, s1)) : SessGood orig s1 := by
  simp only [resolveCity] at h
  split at h
  case h_1 c hc =>
    cases h
    exact hs
  case h_2 =>
    split at h
    case h_1 => cases h
    case h_2 sf hf =>
      cases h
      have hsf := flushAll_sessGood hs hf
      exact ⟨hsf.statuses, hsf.idsNodup, pendingGood_records_eq (by rfl) hsf.pnd⟩

theorem resolveCorpus_sessGood {orig : List MainRow} {s : Session}
    {cid : Int} {kn : String} {kid : Int} {s2 : Session}
    (hs : SessGood orig s) (h : resolveCorpus s cid kn = .ok (kid, s2)) :
    SessGood orig s2 := by
  simp only [resolveCorpus] at h
  split at h
  case h_1 c hc =>
    cases h
    exact hs
  case h_2 =>
    split at h
    case h_1 => cases h
    case h_2 sf hf =>
      cases h
      have hsf := flushAll_sessGood hs hf
      exact ⟨hsf.statuses, hsf.idsNodup, pendingGood_records_eq (by rfl) hsf.pnd⟩

theorem get_or_create_sessGood {orig : List MainRow} {s : Session}
    {cache : Cache} {cn kn : Option String} {res : Option (Int × Int)}
    {s' : Session} {cache' : Cache} (hs : SessGood orig s)
    (h : get_or_create_city_corpus s cache cn kn = .ok (res, s', cache')) :
    SessGood orig s' := by
  simp only [get_or_create_city_corpus] at h
  split at h
  · cases h
    exact hs
  · split at h
    case h_1 pr hpr =>
      cases h
      exact hs
    case h_2 =>
      split at h
      · cases h
      · rename_i cid s1 hcity
        split at h
        · cases h
        · rename_i kid s2 hcorp
          cases h
          exact resolveCorpus_sessGood (resolveCity_sessGood hs hcity) hcorp

theorem sessGet_none {s : Session} {k : Int} (h : sessGet s k = none) :
    pendingUpdLookup s.pending k = none ∧
    s.current.records.find? (fun o => decide (o.id = k)) = none := by
  simp only [sessGet] at h
  split at h
  case h_1 r hr => cases h
  case h_2 hr => exact ⟨hr, h⟩

theorem sessFindNatKey_some {s : Session} {cid : Int} {street : String}
    {hn : Option String} {origId : Int} {dup : MainRow}
    (h : sessFindNatKey s cid street hn = some (origId, dup)) :
    ∃ r0 ∈ s.current.records, r0.id = origId ∧
      (pendingUpdLookup s.pending origId = some dup ∨ dup = r0) := by
  simp only [sessFindNatKey] at h
  split at h
  case h_1 r0 hr0 =>
    have hmem := List.mem_of_find?_eq_some hr0
    split at h
    case h_1 d hd =>
      simp only [Option.some.injEq, Prod.mk.injEq] at h
      obtain ⟨h1, h2⟩ := h
      refine ⟨r0, hmem, h1, Or.inl ?_⟩
      rw [← h1, hd, h2]
    case h_2 hd =>
      simp only [Option.some.injEq, Prod.mk.injEq] at h
      obtain ⟨h1, h2⟩ := h
      exact ⟨r0, hmem, h1, Or.inr h2.symm⟩
  case h_2 => cases h

theorem reconcile_sessGood {orig : List MainRow} {st : LoopState}
    (hs : SessGood orig st.sess) (eid kid : Int) (street : String)
    (hn : Option String) :
    SessGood orig (reconcile st eid kid street hn).sess := by
  simp only [reconcile]
  split
  case h_1 obj hobj =>
    split
    · exact hs
    · simp only [sessGet] at hobj
      split at hobj
      case h_1 pobj hp =>
        injection hobj with hobj'
        subst hobj'
        have hmem := pendingUpdLookup_some hp
        refine stageUpd_sessGood hs ?_ ?_ ?_
        · intro o ho hok
          exact hs.pnd.updStatus eid _ hmem o ho hok
        · rcases hs.pnd.updId eid _ hmem with h1 | h1
          · exact Or.inl h1
          · exact Or.inr h1
        · exact hs.pnd.updKeyExists eid _ hmem
      case h_2 hp =>
        have hmem := List.mem_of_find?_eq_some hobj
        have hoid : obj.id = eid := by
          have hpred := List.find?_some hobj
          simpa using hpred
        refine stageUpd_sessGood hs ?_ ?_ ?_
        · intro o ho hok
          have heq : o = obj :=
            nodup_map_id_inj hs.idsNodup ho hmem (by rw [hok, hoid])
          rw [heq]
        · exact Or.inl hoid
        · exact ⟨obj, hmem, hoid⟩
  case h_2 hnone =>
    obtain ⟨hlook, hfind⟩ := sessGet_none hnone
    have hfresh : ∀ o ∈ st.sess.current.records, o.id ≠ eid := by
      intro o ho
      have := List.find?_eq_none.1 hfind o ho
      simpa using this
    split
    case h_1 origId dup hnat =>
      obtain ⟨r0, hr0mem, hr0id, hdup⟩ := sessFindNatKey_some hnat
      refine stageUpd_sessGood hs ?_ ?_ ?_
      · intro o ho hok
        rcases hdup with hd | hd
        · exact hs.pnd.updStatus origId dup (pendingUpdLookup_some hd) o ho hok
        · have heq : o = r0 :=
            nodup_map_id_inj hs.idsNodup ho hr0mem (by rw [hok, hr0id])
          rw [heq, hd]
      · exact Or.inr hfresh
      · exact ⟨r0, hr0mem, hr0id⟩
    case h_2 hnat =>
      exact stageIns_sessGood hs rfl hfresh

theorem processItem_sessGood {orig : List MainRow} {p : ImportPayload}
    {st st' : LoopState} {item : ExtItem} (hs : SessGood orig st.sess)
    (h : processItem p st item = .ok st') : SessGood orig st'.sess := by
  simp only [processItem] at h
  split at h
  · cases h
    exact hs
  · split at h
    · cases h
      exact hs
    · split at h
      · cases h
      · rename_i s1 cache1 hres
        cases h
        exact get_or_create_sessGood hs hres
      · rename_i cid kid s1 cache1 hres
        cases h
        exact reconcile_sessGood (get_or_create_sessGood hs hres) _ _ _ _

theorem runCore_sessGood {orig : List MainRow} {p : ImportPayload} :
    ∀ {items : List ExtItem} {st st' : LoopState}, SessGood orig st.sess →
      runCore p st items = .ok st' → SessGood orig st'.sess := by
  intro items
  induction items with
  | nil =>
    intro st st' hs h
    simp only [runCore] at h
    cases h
    exact hs
  | cons item rest ih =>
    intro st st' hs h
    simp only [runCore] at h
    split at h
    case h_1 st1 hstep => exact ih (processItem_sessGood hs hstep) h
    case h_2 => cases h

theorem commitAll_sessGood {orig : List MainRow} {s s' : Session}
    (hs : SessGood orig s) (h : s.commitAll = .ok s') :
    SessGood orig s' ∧ s'.committed = s'.current := by
  simp only [Session.commitAll] at h
  split at h
  case h_1 sf hf =>
    cases h
    have hsf := flushAll_sessGood hs hf
    exact ⟨⟨hsf.statuses, hsf.idsNodup, hsf.pnd⟩, rfl⟩
  case h_2 => cases h

/-- C10: an import run that returns a Summary never modifies the status
flag of a pre-existing record — whatever other fields it updates or
re-keys — and every record it inserts receives status true: the committed
statuses column is exactly the original one, position by position, extended
by a block of `true`s for the newly inserted rows. (The hypothesis that the
stored ids are distinct is the table's primary-key invariant.) -/
theorem c10_import_never_touches_status (p : ImportPayload) (db0 : DB)
    (seqCity seqCorpus : Int) (results : List ExtItem)
    (sum : ImportSummary) (sf : Session)
    (hnd : (db0.records.map (·.id)).Nodup)
    (h : import_homes p db0 seqCity seqCorpus results = .ok (sum, sf)) :
    ∃ m, sf.committed.records.map (·.status) =
      db0.records.map (·.status) ++ List.replicate m true := by
  simp only [import_homes] at h
  split at h
  case h_1 => cases h
  case h_2 st hrun =>
    have hs0 : SessGood db0.records (initLoop db0 seqCity seqCorpus).sess :=
      ⟨⟨0, by simp [recStatuses, initLoop]⟩, hnd, pendingGood_nil _⟩
    have hst := runCore_sessGood hs0 hrun
    split at h
    case h_1 => cases h
    case h_2 sfc hcommit =>
      obtain ⟨hgood, hcc⟩ := commitAll_sessGood hst hcommit
      split at h
      case h_1 => cases h
      case h_2 cityId hcity =>
        cases h
        obtain ⟨m, hm⟩ := hgood.statuses
        refine ⟨m, ?_⟩
        rw [hcc]
        exact hm

theorem c10_import_never_touches_status_witness :
    ∃ m, statusRunSession.committed.records.map (·.status) =
      statusDB.records.map (·.status) ++ List.replicate m true :=
  c10_import_never_touches_status pNone statusDB 2 2 [updItem, rekeyItemA]
    statusRunSummary statusRunSession (by decide) (by rfl)

end AllLineBack
